import Mathlib

/-!
# Verification of the stock-forecasting core (`packages/ml/src`)

A shallow embedding of `model.py` (`create_features`, `predict_prices`) and
`predict.py` (`generate_predictions`).

Modelling conventions:

* A historical bar series enters the pipeline as its chronologically ordered
  list of closing prices (`List ℚ`).  The source sorts the frame by the
  `date` column and never reads dates again (forecast dates are derived from
  the wall clock), so dates are not carried.  The embedding covers the
  mandatory input schema `{date, close}`; per `create_features`, the
  volume/high/low signal groups are simply absent for such inputs, and the
  column list fixed before the rollout never contains them.
* A pandas column is a `Series := ℕ → Option ℚ`: `none` is NaN (an undefined
  signal), indices are row labels `0, 1, …`.
* Machine floats are modelled by `ℚ`.  `rolling(w).std()` leaves `ℚ` (square
  roots), so volatility columns carry the rolling *sample variance*
  (pandas' `std` squared, same `ddof = 1`): a variance is NaN/zero exactly
  when the standard deviation is, and the numeric values of feature columns
  are consumed only by the opaque fitted estimator, which the embedding takes
  as a parameter.
* The effects hidden inside `predict_prices` are hoisted into parameters:
  the fitted forest (`model.estimators_`) becomes `trees : List (List ℚ → ℚ)`,
  its out-of-bag score becomes `oob : ℚ`, the seeded NumPy generator becomes
  `gauss : ℕ → ℚ → ℚ` (step index and cross-tree variance to the drawn noise;
  `np.random.normal 0 (std * 0.5)` scales a standard draw by the cross-tree
  deviation, so a zero variance forces a zero draw), and `datetime.now()`
  becomes `today : ℕ` (a day number whose weekday is `today % 7`, day `0`
  being a Monday, matching Python's `weekday()`: `5` = Saturday, `6` = Sunday).
-/

/-- A pandas column over row labels `0, 1, …`; `none` models NaN. -/
def Series : Type := ℕ → Option ℚ

/-- The `close` column of the sorted frame: row `t` holds the `t`-th close. -/
def closeSeries (cs : List ℚ) : Series := fun t => cs.get? t

/-- Pointwise arithmetic on two columns; NaN operands make the result NaN. -/
def smap2 (f : ℚ → ℚ → ℚ) (a b : Series) : Series := fun t =>
  match a t, b t with
  | some x, some y => some (f x y)
  | _, _ => none

/-- Pointwise division of columns.  Pandas maps `0/0` to NaN and `x/0`
(`x ≠ 0`) to `±inf`; in this pipeline every denominator is a close, a moving
average of closes (both positive for a valid bar series) or `volatility_20d`,
and a vanishing 20-day volatility forces the 5-day volatility over the
contained sub-window to vanish too, so the only reachable zero-denominator
case is `0/0`.  The embedding therefore marks every zero denominator NaN. -/
def sdiv (a b : Series) : Series := fun t =>
  match a t, b t with
  | some x, some y => if y = 0 then none else some (x / y)
  | _, _ => none

/-- `Series.shift(k)` for `k ≥ 0`: row `t` reads row `t - k`. -/
def sshift (k : ℕ) (a : Series) : Series := fun t =>
  if t < k then none else a (t - k)

/-- `Series.pct_change(k)`: `(a[t] - a[t-k]) / a[t-k]`. -/
def pctChange (k : ℕ) (a : Series) : Series :=
  sdiv (smap2 (fun x y => x - y) a (sshift k a)) (sshift k a)

/-- Collect a list of optional values; any NaN poisons the window. -/
def optList : List (Option ℚ) → Option (List ℚ)
  | [] => some []
  | none :: _ => none
  | some x :: rest => (optList rest).map (fun l => x :: l)

/-- The `w`-row trailing window `a[t-w+1 … t]` (order is immaterial for the
statistics taken of it); NaN when fewer than `w` rows exist or any entry is
NaN, matching `rolling(w)` with its default `min_periods = w`. -/
def window (w : ℕ) (a : Series) (t : ℕ) : Option (List ℚ) :=
  if t + 1 < w then none
  else optList ((List.range w).map (fun j => a (t - j)))

/-- Arithmetic mean of a window. -/
def meanQ (l : List ℚ) : ℚ := l.sum / l.length

/-- Sample variance of a window (`ddof = 1`, as pandas' `std`). -/
def varQ (l : List ℚ) : ℚ :=
  ((l.map (fun x => (x - meanQ l) ^ 2)).sum) / ((l.length : ℚ) - 1)

/-- `Series.rolling(w).mean()`. -/
def rollingMean (w : ℕ) (a : Series) : Series := fun t =>
  (window w a t).map meanQ

/-- `Series.rolling(w).std()`, carried as its square (see header). -/
def rollingVarS (w : ℕ) (a : Series) : Series := fun t =>
  (window w a t).map varQ

/-! ## `create_features` (model.py lines 23–95), close-only input

Each definition is one derived column of the frame returned by
`create_features`, as a function of the close series. -/

/-- `df['return_1d'] = df['close'].pct_change()`. -/
def return_1d (cs : List ℚ) : Series := pctChange 1 (closeSeries cs)

/-- `df['return_2d'] = df['close'].pct_change(2)`. -/
def return_2d (cs : List ℚ) : Series := pctChange 2 (closeSeries cs)

/-- `df['return_3d'] = df['close'].pct_change(3)`. -/
def return_3d (cs : List ℚ) : Series := pctChange 3 (closeSeries cs)

/-- `df['return_5d'] = df['close'].pct_change(5)`. -/
def return_5d (cs : List ℚ) : Series := pctChange 5 (closeSeries cs)

/-- `df['return_10d'] = df['close'].pct_change(10)`. -/
def return_10d (cs : List ℚ) : Series := pctChange 10 (closeSeries cs)

/-- `df['sma_5'] = df['close'].rolling(5).mean()`. -/
def sma_5 (cs : List ℚ) : Series := rollingMean 5 (closeSeries cs)

/-- `df['sma_10'] = df['close'].rolling(10).mean()`. -/
def sma_10 (cs : List ℚ) : Series := rollingMean 10 (closeSeries cs)

/-- `df['sma_20'] = df['close'].rolling(20).mean()`. -/
def sma_20 (cs : List ℚ) : Series := rollingMean 20 (closeSeries cs)

/-- `df['price_vs_sma5'] = (df['close'] - df['sma_5']) / df['sma_5']`. -/
def price_vs_sma5 (cs : List ℚ) : Series :=
  sdiv (smap2 (fun x y => x - y) (closeSeries cs) (sma_5 cs)) (sma_5 cs)

/-- `df['price_vs_sma10'] = (df['close'] - df['sma_10']) / df['sma_10']`. -/
def price_vs_sma10 (cs : List ℚ) : Series :=
  sdiv (smap2 (fun x y => x - y) (closeSeries cs) (sma_10 cs)) (sma_10 cs)

/-- `df['price_vs_sma20'] = (df['close'] - df['sma_20']) / df['sma_20']`. -/
def price_vs_sma20 (cs : List ℚ) : Series :=
  sdiv (smap2 (fun x y => x - y) (closeSeries cs) (sma_20 cs)) (sma_20 cs)

/-- `df['sma5_vs_sma10'] = (df['sma_5'] - df['sma_10']) / df['sma_10']`. -/
def sma5_vs_sma10 (cs : List ℚ) : Series :=
  sdiv (smap2 (fun x y => x - y) (sma_5 cs) (sma_10 cs)) (sma_10 cs)

/-- `df['sma5_vs_sma20'] = (df['sma_5'] - df['sma_20']) / df['sma_20']`. -/
def sma5_vs_sma20 (cs : List ℚ) : Series :=
  sdiv (smap2 (fun x y => x - y) (sma_5 cs) (sma_20 cs)) (sma_20 cs)

/-- `df['sma10_vs_sma20'] = (df['sma_10'] - df['sma_20']) / df['sma_20']`. -/
def sma10_vs_sma20 (cs : List ℚ) : Series :=
  sdiv (smap2 (fun x y => x - y) (sma_10 cs) (sma_20 cs)) (sma_20 cs)

/-- `df['volatility_5d'] = df['return_1d'].rolling(5).std()` (its square). -/
def volatility_5d (cs : List ℚ) : Series := rollingVarS 5 (return_1d cs)

/-- `df['volatility_10d'] = df['return_1d'].rolling(10).std()` (its square). -/
def volatility_10d (cs : List ℚ) : Series := rollingVarS 10 (return_1d cs)

/-- `df['volatility_20d'] = df['return_1d'].rolling(20).std()` (its square). -/
def volatility_20d (cs : List ℚ) : Series := rollingVarS 20 (return_1d cs)

/-- `df['vol_ratio_5_20'] = df['volatility_5d'] / df['volatility_20d']`
(ratio of the carried squares; NaN exactly when the source's ratio is). -/
def vol_ratio_5_20 (cs : List ℚ) : Series :=
  sdiv (volatility_5d cs) (volatility_20d cs)

/-- `df['return_lag_1'] = df['return_1d'].shift(1)`. -/
def return_lag_1 (cs : List ℚ) : Series := sshift 1 (return_1d cs)

/-- `df['return_lag_2'] = df['return_1d'].shift(2)`. -/
def return_lag_2 (cs : List ℚ) : Series := sshift 2 (return_1d cs)

/-- `df['return_lag_3'] = df['return_1d'].shift(3)`. -/
def return_lag_3 (cs : List ℚ) : Series := sshift 3 (return_1d cs)

/-- `df['return_lag_5'] = df['return_1d'].shift(5)`. -/
def return_lag_5 (cs : List ℚ) : Series := sshift 5 (return_1d cs)

/-- `df['target_return'] = df['close'].pct_change().shift(-1)`:
tomorrow's 1-day return, the training label. -/
def target_return (cs : List ℚ) : Series := fun t => return_1d cs (t + 1)

/-- The `feature_columns` list of `predict_prices` (model.py lines 128–142)
for a close-only frame, in source order: the 18 base names plus
`vol_ratio_5_20` (always created, hence always appended); the volume and
high/low groups are absent from a close-only frame. -/
def featureColumns (cs : List ℚ) : List Series :=
  [return_1d cs, return_2d cs, return_3d cs, return_5d cs, return_10d cs,
   price_vs_sma5 cs, price_vs_sma10 cs, price_vs_sma20 cs,
   sma5_vs_sma10 cs, sma5_vs_sma20 cs, sma10_vs_sma20 cs,
   volatility_5d cs, volatility_10d cs, volatility_20d cs,
   return_lag_1 cs, return_lag_2 cs, return_lag_3 cs, return_lag_5 cs,
   vol_ratio_5_20 cs]

/-- Row `t` survives `df.dropna(subset=feature_columns + ['target_return'])`:
every listed feature and the target are defined there. -/
def rowUsable (cs : List ℚ) (t : ℕ) : Bool :=
  ((featureColumns cs).all (fun s => (s t).isSome)) &&
    (target_return cs t).isSome

/-- `len(df_clean)`: the number of rows surviving the dropna step. -/
def cleanCount (cs : List ℚ) : ℕ :=
  (List.range cs.length).countP (rowUsable cs)

/-! ## `predict_prices` (model.py lines 102–265) -/

/-- Python's `round(x, 2)` on an ideal decimal: round half to even at two
decimal places (float representation noise aside, which `ℚ` does not model). -/
def roundHalfEven (q : ℚ) : ℤ :=
  if q - ⌊q⌋ < 1 / 2 then ⌊q⌋
  else if 1 / 2 < q - ⌊q⌋ then ⌊q⌋ + 1
  else if ⌊q⌋ % 2 = 0 then ⌊q⌋ else ⌊q⌋ + 1

/-- `round(x, 2)`. -/
def round2 (q : ℚ) : ℚ := (roundHalfEven (q * 100) : ℚ) / 100

/-- `max(-0.05, min(0.05, predicted_return))` (model.py line 238). -/
def clampRet (r : ℚ) : ℚ := max (-(5 / 100)) (min (5 / 100) r)

/-- `next_date = last + 1 day; while next_date.weekday() >= 5: next_date += 1`
(model.py lines 209–211).  Day numbers have weekday `d % 7`, day `0` a Monday;
landing on Saturday skips two days, on Sunday one, so the loop is closed form. -/
def nextBusinessDay (d : ℕ) : ℕ :=
  if (d + 1) % 7 = 5 then d + 3 else if (d + 1) % 7 = 6 then d + 2 else d + 1

/-- Insertion into a `≤`-sorted list (helper for the median). -/
def insertLe (x : ℚ) : List ℚ → List ℚ
  | [] => [x]
  | y :: ys => if x ≤ y then x :: y :: ys else y :: insertLe x ys

/-- Insertion sort (helper for the median). -/
def sortLe : List ℚ → List ℚ
  | [] => []
  | x :: xs => insertLe x (sortLe xs)

/-- `np.median`: middle of the sorted list, or the mean of the two middles;
the empty case (NumPy's NaN) is unreachable — the forest always has
`n_estimators = 100 > 0` trees. -/
def medianQ (l : List ℚ) : ℚ :=
  let s := sortLe l
  let k := l.length
  if k = 0 then 0
  else if k % 2 = 1 then s.getD (k / 2) 0
  else (s.getD (k / 2 - 1) 0 + s.getD (k / 2) 0) / 2

/-- `np.std(tree_predictions)` squared: the population variance (`ddof = 0`),
carried squared for the same reason as the volatility columns; it reaches the
output only through the opaque noise draw `gauss`. -/
def popVarQ (l : List ℚ) : ℚ :=
  ((l.map (fun x => (x - meanQ l) ^ 2)).sum) / (l.length : ℚ)

/-- `df['return_1d'].mean()` over the original frame: pandas' mean skips NaN,
so this averages the `len - 1` defined 1-day returns.  (The all-NaN case,
where pandas yields NaN, needs a history of fewer than 2 rows and is
unreachable past the 30-clean-rows gate; `ℚ` division by zero yields `0`.) -/
def meanReturn (cs : List ℚ) : ℚ :=
  let vals := (List.range cs.length).filterMap (fun t => return_1d cs t)
  vals.sum / vals.length

/-- `current_df.iloc[-1:][feature_columns]`: the feature vector of the last
row of the working frame, under the column list fixed before the loop. -/
def latestFeatures (frame : List ℚ) : List (Option ℚ) :=
  (featureColumns frame).map (fun s => s (frame.length - 1))

/-- One rollout step's `predicted_return` before clamping (model.py lines
213–235): the historical-mean fallback when any feature of the latest row is
NaN, otherwise the cross-tree median plus the seeded noise draw (hoisted into
`gauss`, fed the step index and the cross-tree variance). -/
def stepReturn (trees : List (List ℚ → ℚ)) (gauss : ℕ → ℚ → ℚ)
    (histMean : ℚ) (frame : List ℚ) (i : ℕ) : ℚ :=
  let feats := latestFeatures frame
  if feats.any (fun v => v.isNone) then histMean
  else
    let xs := feats.map (fun v => v.getD 0)
    let preds := trees.map (fun tr => tr xs)
    medianQ preds + gauss i (popVarQ preds)

/-- `round(display_confidence * (1 - i * 0.03), 2)` (model.py lines 244, 249). -/
def dayConfidence (display : ℚ) (i : ℕ) : ℚ :=
  round2 (display * (1 - (i : ℚ) * (3 / 100)))

/-- `display_confidence = min(0.85, max(0.40, 0.50 + oob_r2 * 2.5))`
(model.py line 185). -/
def displayConfidence (oob : ℚ) : ℚ :=
  min (85 / 100) (max (40 / 100) (1 / 2 + oob * (5 / 2)))

/-- One emitted prediction: `{target_date, predicted_close, confidence}`;
the date is a day number (the source formats it as `YYYY-MM-DD`). -/
structure Prediction where
  target_date : ℕ
  predicted_close : ℚ
  confidence : ℚ
deriving DecidableEq

/-- The prediction loop (model.py lines 207–263).  State: step index `i`,
remaining steps, the working copy's closes (the synthetic appends), the
unrounded `last_price`, and `last_pred_date`.  Each step finds the next
business day, recomputes the features of the grown frame, clamps the
predicted return, converts it to a price, emits the rounded entry, and
appends the synthetic bar (its close is the unrounded price; its other
columns are never read back through `feature_columns`). -/
def rolloutAux (trees : List (List ℚ → ℚ)) (gauss : ℕ → ℚ → ℚ)
    (display histMean : ℚ) :
    ℕ → ℕ → List ℚ → ℚ → ℕ → List Prediction
  | _, 0, _, _, _ => []
  | i, k + 1, frame, lastPrice, lastDate =>
    let d := nextBusinessDay lastDate
    let r := clampRet (stepReturn trees gauss histMean frame i)
    let p := lastPrice * (1 + r)
    { target_date := d, predicted_close := round2 p,
      confidence := dayConfidence display i } ::
      rolloutAux trees gauss display histMean (i + 1) k (frame ++ [p]) p d

/-- `df['close'].iloc[-1]` (defaulted on the empty frame, which cannot reach
this read: the 30-clean-rows gate fires first). -/
def lastClose (cs : List ℚ) : ℚ := cs.getLast?.getD 0

/-- `predict_prices(historical_data, days_to_predict)` for a close-only
history, with the fitted forest, its out-of-bag score, the seeded noise
stream and the wall-clock date hoisted into parameters (see the header).
Returns the error dictionary when fewer than 30 rows survive the dropna,
otherwise the list built by the rollout. -/
def predictPrices (trees : List (List ℚ → ℚ)) (oob : ℚ) (gauss : ℕ → ℚ → ℚ)
    (cs : List ℚ) (today : ℕ) (horizon : ℕ) : Except String (List Prediction) :=
  if cleanCount cs < 30 then
    .error ("Not enough data. Need 30+ rows, got " ++ toString (cleanCount cs))
  else
    .ok (rolloutAux trees gauss (displayConfidence oob) (meanReturn cs)
      0 horizon cs (lastClose cs) today)

/-! ## `generate_predictions` (predict.py lines 21–56) -/

/-- The success payload of `generate_predictions`. -/
structure ForecastResult where
  symbol : String
  model_version : String
  historical_days_used : ℕ
  predictions : List Prediction
deriving DecidableEq

/-- `generate_predictions(symbol, days_to_predict)`.  The excluded data
provider's output is a parameter: either its error dictionary or the fetched
close series.  Provider errors pass through; histories of fewer than 20 rows
short-circuit; model errors pass through; success wraps the predictions with
the symbol, the constant `model_version` tag `"ridge_v1"` and the fetched
row count. -/
def generatePredictions (trees : List (List ℚ → ℚ)) (oob : ℚ)
    (gauss : ℕ → ℚ → ℚ) (symbol : String)
    (fetched : Except String (List ℚ)) (today : ℕ) (horizon : ℕ) :
    Except String ForecastResult :=
  match fetched with
  | .error e => .error e
  | .ok cs =>
    if cs.length < 20 then
      .error ("Not enough data for " ++ symbol ++
        ". Need at least 20 days, got " ++ toString cs.length)
    else
      match predictPrices trees oob gauss cs today horizon with
      | .error e => .error e
      | .ok ps =>
        .ok { symbol := symbol, model_version := "ridge_v1",
              historical_days_used := cs.length, predictions := ps }

/-! ## Concrete instances used by witnesses and counterexamples -/

/-- A 51-bar close series alternating between 1 and 2: long enough that
exactly 30 rows survive the dropna (rows 20–49), with nonvanishing rolling
volatility everywhere it is defined. -/
def histA : List ℚ := (List.range 51).map (fun t => if t % 2 = 0 then 1 else 2)

/-- The same shape at 1/1000 scale: a penny-stock history (all closes
positive, the last one 0.001); percentage returns are scale-invariant, so
again exactly 30 rows survive. -/
def histB : List ℚ :=
  (List.range 51).map (fun t => if t % 2 = 0 then 1 / 1000 else 2 / 1000)

/-- A one-tree forest whose tree predicts a zero return everywhere — the
tree-disagreement variance is then 0, so the seeded noise draw is 0 exactly. -/
def treesZero : List (List ℚ → ℚ) := [fun _ => 0]

/-- The noise stream drawing 0 at every step: the value `np.random.normal`
takes whenever the scale `tree_std * 0.5` is zero, whatever the seed. -/
def gaussZero : ℕ → ℚ → ℚ := fun _ _ => 0

/-- The specification's clamp: `clamp(x, lo, hi)` pins `x` into `[lo, hi]`.
Defined from the spec's words (§4.2 step 5), to be compared with the source's
`min(0.85, max(0.40, …))`. -/
def clampSpec (x lo hi : ℚ) : ℚ :=
  if x < lo then lo else if hi < x then hi else x

deriving instance DecidableEq for Except

attribute [local semireducible] Rat.add Rat.sub Rat.mul Rat.inv

/-! ## General lemmas: rounding, clamping, calendar stepping -/

theorem roundHalfEven_ge_floor (q : ℚ) : ⌊q⌋ ≤ roundHalfEven q := by
  unfold roundHalfEven; split_ifs <;> omega

theorem roundHalfEven_le_floor_add_one (q : ℚ) : roundHalfEven q ≤ ⌊q⌋ + 1 := by
  unfold roundHalfEven; split_ifs <;> omega

theorem roundHalfEven_mono {x y : ℚ} (h : x ≤ y) :
    roundHalfEven x ≤ roundHalfEven y := by
  rcases lt_or_ge ⌊x⌋ ⌊y⌋ with hf | hf
  · have h1 := roundHalfEven_le_floor_add_one x
    have h2 := roundHalfEven_ge_floor y
    omega
  · have hfe : ⌊y⌋ = ⌊x⌋ := le_antisymm hf (Int.floor_le_floor h)
    unfold roundHalfEven
    rw [hfe]
    split_ifs with h1 h2 h3 h4 h5 <;> first | omega | (exfalso; linarith)

theorem round2_mono {x y : ℚ} (h : x ≤ y) : round2 x ≤ round2 y := by
  unfold round2
  have : roundHalfEven (x * 100) ≤ roundHalfEven (y * 100) :=
    roundHalfEven_mono (by linarith)
  have : ((roundHalfEven (x * 100) : ℚ)) ≤ (roundHalfEven (y * 100) : ℚ) := by
    exact_mod_cast this
  linarith

theorem round2_nonneg {q : ℚ} (h : 0 ≤ q) : 0 ≤ round2 q := by
  unfold round2
  have h1 : (0 : ℤ) ≤ ⌊q * 100⌋ := Int.floor_nonneg.2 (by linarith)
  have h2 := roundHalfEven_ge_floor (q * 100)
  have : (0 : ℚ) ≤ (roundHalfEven (q * 100) : ℚ) := by exact_mod_cast le_trans h1 h2
  linarith

theorem clampRet_lb (r : ℚ) : -(5 / 100) ≤ clampRet r := le_max_left _ _

theorem clampRet_ub (r : ℚ) : clampRet r ≤ 5 / 100 :=
  max_le (by norm_num) (min_le_left _ _)

theorem one_add_clampRet_pos (r : ℚ) : 0 < 1 + clampRet r := by
  have := clampRet_lb r; linarith

theorem nextBusinessDay_gt (d : ℕ) : d < nextBusinessDay d := by
  unfold nextBusinessDay; split_ifs <;> omega

theorem nextBusinessDay_weekday (d : ℕ) : nextBusinessDay d % 7 < 5 := by
  unfold nextBusinessDay; split_ifs <;> omega

theorem displayConfidence_lb (oob : ℚ) : 40 / 100 ≤ displayConfidence oob :=
  le_min (by norm_num) (le_max_left _ _)

theorem displayConfidence_ub (oob : ℚ) : displayConfidence oob ≤ 85 / 100 :=
  min_le_left _ _

theorem dayConfidence_antitone {dc : ℚ} (hdc : 0 ≤ dc) {i j : ℕ} (hij : i ≤ j) :
    dayConfidence dc j ≤ dayConfidence dc i := by
  unfold dayConfidence
  apply round2_mono
  have hc : ((i : ℚ)) ≤ (j : ℚ) := by exact_mod_cast hij
  have : (1 : ℚ) - (j : ℚ) * (3 / 100) ≤ 1 - (i : ℚ) * (3 / 100) := by linarith
  exact mul_le_mul_of_nonneg_left this hdc

theorem dayConfidence_nonneg {dc : ℚ} (hdc : 0 ≤ dc) {i : ℕ} (hi : i ≤ 33) :
    0 ≤ dayConfidence dc i := by
  unfold dayConfidence
  apply round2_nonneg
  have hc : ((i : ℚ)) ≤ 33 := by exact_mod_cast hi
  have : (0 : ℚ) ≤ 1 - (i : ℚ) * (3 / 100) := by linarith
  exact mul_nonneg hdc this

theorem dayConfidence_le_one {dc : ℚ} (hdc0 : 0 ≤ dc) (hdc1 : dc ≤ 85 / 100)
    (i : ℕ) : dayConfidence dc i ≤ 1 := by
  have hfac : dc * (1 - (i : ℚ) * (3 / 100)) ≤ 85 / 100 := by
    have hc : (0 : ℚ) ≤ (i : ℚ) * (3 / 100) := by positivity
    nlinarith
  have h85 : round2 (85 / 100) = 85 / 100 := by decide
  calc dayConfidence dc i ≤ round2 (85 / 100) := round2_mono hfac
    _ = 85 / 100 := h85
    _ ≤ 1 := by norm_num

/-! ## Structural lemmas about the rollout loop -/

theorem rolloutAux_length (trees : List (List ℚ → ℚ)) (gauss : ℕ → ℚ → ℚ)
    (display histMean : ℚ) :
    ∀ (k i : ℕ) (frame : List ℚ) (P : ℚ) (D : ℕ),
      (rolloutAux trees gauss display histMean i k frame P D).length = k := by
  intro k
  induction k with
  | zero => intro i frame P D; rfl
  | succ k ih =>
    intro i frame P D
    simp only [rolloutAux, List.length_cons, ih]

theorem rolloutAux_dates (trees : List (List ℚ → ℚ)) (gauss : ℕ → ℚ → ℚ)
    (display histMean : ℚ) :
    ∀ (k i : ℕ) (frame : List ℚ) (P : ℚ) (D : ℕ),
      ∀ p ∈ rolloutAux trees gauss display histMean i k frame P D,
        D < p.target_date ∧ p.target_date % 7 < 5 := by
  intro k
  induction k with
  | zero => intro i frame P D p hp; simp [rolloutAux] at hp
  | succ k ih =>
    intro i frame P D p hp
    simp only [rolloutAux, List.mem_cons] at hp
    rcases hp with hp | hp
    · subst hp
      exact ⟨nextBusinessDay_gt D, nextBusinessDay_weekday D⟩
    · have h := ih (i + 1) _ _ (nextBusinessDay D) p hp
      exact ⟨lt_trans (nextBusinessDay_gt D) h.1, h.2⟩

theorem rolloutAux_dates_sorted (trees : List (List ℚ → ℚ)) (gauss : ℕ → ℚ → ℚ)
    (display histMean : ℚ) :
    ∀ (k i : ℕ) (frame : List ℚ) (P : ℚ) (D : ℕ),
      ((rolloutAux trees gauss display histMean i k frame P D).map
        Prediction.target_date).Pairwise (· < ·) := by
  intro k
  induction k with
  | zero => intro i frame P D; simp [rolloutAux]
  | succ k ih =>
    intro i frame P D
    simp only [rolloutAux, List.map_cons, List.pairwise_cons]
    constructor
    · intro d hd
      simp only [List.mem_map] at hd
      obtain ⟨p, hp, rfl⟩ := hd
      exact (rolloutAux_dates trees gauss display histMean k (i + 1) _ _ _ p hp).1
    · exact ih (i + 1) _ _ _

theorem rolloutAux_confidences (trees : List (List ℚ → ℚ)) (gauss : ℕ → ℚ → ℚ)
    (display histMean : ℚ) :
    ∀ (k i : ℕ) (frame : List ℚ) (P : ℚ) (D : ℕ),
      (rolloutAux trees gauss display histMean i k frame P D).map
          Prediction.confidence =
        (List.range k).map (fun j => dayConfidence display (i + j)) := by
  intro k
  induction k with
  | zero => intro i frame P D; simp [rolloutAux]
  | succ k ih =>
    intro i frame P D
    rw [List.range_succ_eq_map]
    simp only [rolloutAux, List.map_cons, List.map_map]
    rw [ih (i + 1) _ _ _]
    refine congrArg₂ List.cons (by simp) ?_
    apply List.map_congr_left
    intro j _
    simp only [Function.comp_apply]
    congr 1
    omega

theorem rolloutAux_close_nonneg (trees : List (List ℚ → ℚ)) (gauss : ℕ → ℚ → ℚ)
    (display histMean : ℚ) :
    ∀ (k i : ℕ) (frame : List ℚ) (P : ℚ) (D : ℕ), 0 < P →
      ∀ p ∈ rolloutAux trees gauss display histMean i k frame P D,
        0 ≤ p.predicted_close := by
  intro k
  induction k with
  | zero => intro i frame P D _ p hp; simp [rolloutAux] at hp
  | succ k ih =>
    intro i frame P D hP p hp
    simp only [rolloutAux, List.mem_cons] at hp
    have hpos : 0 < P * (1 + clampRet (stepReturn trees gauss histMean frame i)) :=
      mul_pos hP (one_add_clampRet_pos _)
    rcases hp with hp | hp
    · subst hp
      exact round2_nonneg (le_of_lt hpos)
    · exact ih (i + 1) _ _ _ hpos p hp

/-- The gate of `predict_prices`: past the 30-clean-rows check the result is
the rollout started at step 0 on the original closes, the last close and the
wall-clock date, with the clamped display confidence and the historical mean
return of the original frame. -/
theorem predictPrices_eq_ok {cs : List ℚ} (h : ¬ cleanCount cs < 30)
    (trees : List (List ℚ → ℚ)) (oob : ℚ) (gauss : ℕ → ℚ → ℚ)
    (today horizon : ℕ) :
    predictPrices trees oob gauss cs today horizon =
      .ok (rolloutAux trees gauss (displayConfidence oob) (meanReturn cs)
        0 horizon cs (lastClose cs) today) := by
  simp [predictPrices, h]

theorem predictPrices_ok_inv {trees : List (List ℚ → ℚ)} {oob : ℚ}
    {gauss : ℕ → ℚ → ℚ} {cs : List ℚ} {today horizon : ℕ}
    {ps : List Prediction}
    (h : predictPrices trees oob gauss cs today horizon = .ok ps) :
    ¬ cleanCount cs < 30 ∧
      ps = rolloutAux trees gauss (displayConfidence oob) (meanReturn cs)
        0 horizon cs (lastClose cs) today := by
  by_cases hc : cleanCount cs < 30
  · simp [predictPrices, hc] at h
  · rw [predictPrices_eq_ok hc] at h
    exact ⟨hc, (Except.ok.inj h).symm⟩

/-! ## Definedness of the feature columns -/

theorem closeSeries_isSome {cs : List ℚ} {t : ℕ} :
    (closeSeries cs t).isSome ↔ t < cs.length := by
  unfold closeSeries
  rw [List.get?_eq_getElem?, Option.isSome_iff_exists]
  constructor
  · rintro ⟨a, ha⟩; exact (List.getElem?_eq_some.1 ha).1
  · intro h; exact ⟨cs[t], List.getElem?_eq_some.2 ⟨h, rfl⟩⟩

theorem closeSeries_pos {cs : List ℚ} (hp : ∀ c ∈ cs, 0 < c) {t : ℕ} {x : ℚ}
    (h : closeSeries cs t = some x) : 0 < x :=
  hp x (List.get?_mem h)

theorem smap2_isSome {f : ℚ → ℚ → ℚ} {a b : Series} {t : ℕ} :
    (smap2 f a b t).isSome ↔ (a t).isSome ∧ (b t).isSome := by
  unfold smap2
  rcases a t with _ | x <;> rcases b t with _ | y <;> simp

theorem sdiv_isSome {a b : Series} {t : ℕ} :
    (sdiv a b t).isSome ↔ (a t).isSome ∧ ∃ y, b t = some y ∧ y ≠ 0 := by
  unfold sdiv
  rcases a t with _ | x <;> rcases b t with _ | y <;> simp

theorem sshift_isSome {k : ℕ} {a : Series} {t : ℕ} :
    (sshift k a t).isSome ↔ k ≤ t ∧ (a (t - k)).isSome := by
  unfold sshift
  split_ifs with h
  · simp; omega
  · simp; omega

theorem pctChange_isSome {cs : List ℚ} (hp : ∀ c ∈ cs, 0 < c) (k t : ℕ) :
    (pctChange k (closeSeries cs) t).isSome ↔ k ≤ t ∧ t < cs.length := by
  unfold pctChange
  rw [sdiv_isSome, smap2_isSome, sshift_isSome]
  constructor
  · rintro ⟨⟨hc, hs, _⟩, _⟩
    exact ⟨hs, closeSeries_isSome.1 hc⟩
  · rintro ⟨hk, ht⟩
    have hs : (closeSeries cs (t - k)).isSome := closeSeries_isSome.2 (by omega)
    obtain ⟨y, hy⟩ := Option.isSome_iff_exists.1 hs
    refine ⟨⟨closeSeries_isSome.2 ht, hk, hs⟩, y, ?_, ?_⟩
    · unfold sshift
      rw [if_neg (by omega)]
      exact hy
    · exact ne_of_gt (closeSeries_pos hp hy) 

theorem optList_isSome {L : List (Option ℚ)} :
    (optList L).isSome ↔ ∀ x ∈ L, x.isSome := by
  induction L with
  | nil => simp [optList]
  | cons hd tl ih =>
    rcases hd with _ | x <;> simp [optList, ih]

theorem optList_mem {L : List (Option ℚ)} {l : List ℚ}
    (h : optList L = some l) : ∀ x ∈ l, some x ∈ L := by
  induction L generalizing l with
  | nil =>
    simp only [optList] at h
    cases h
    simp
  | cons hd tl ih =>
    rcases hd with _ | z
    · simp [optList] at h
    · simp only [optList, Option.map_eq_some'] at h
      obtain ⟨l', hl', rfl⟩ := h
      intro x hx
      rcases List.mem_cons.1 hx with rfl | hx
      · exact List.mem_cons_self _ _
      · exact List.mem_cons_of_mem _ (ih hl' x hx)

theorem optList_length {L : List (Option ℚ)} {l : List ℚ}
    (h : optList L = some l) : l.length = L.length := by
  induction L generalizing l with
  | nil => simp only [optList] at h; cases h; rfl
  | cons hd tl ih =>
    rcases hd with _ | z
    · simp [optList] at h
    · simp only [optList, Option.map_eq_some'] at h
      obtain ⟨l', hl', rfl⟩ := h
      simp [ih hl']

theorem window_isSome {w : ℕ} {a : Series} {t : ℕ} :
    (window w a t).isSome ↔ w ≤ t + 1 ∧ ∀ j < w, (a (t - j)).isSome := by
  unfold window
  split_ifs with h
  · simp only [Option.isSome_none, Bool.false_eq_true, false_iff]
    omega
  · rw [optList_isSome]
    simp only [List.mem_map, List.mem_range]
    constructor
    · intro hx
      refine ⟨by omega, fun j hj => ?_⟩
      exact hx _ ⟨j, hj, rfl⟩
    · rintro ⟨-, hx⟩ x ⟨j, hj, rfl⟩
      exact hx j hj

theorem window_mem {w : ℕ} {a : Series} {t : ℕ} {l : List ℚ}
    (h : window w a t = some l) : ∀ x ∈ l, ∃ j < w, a (t - j) = some x := by
  unfold window at h
  split_ifs at h
  intro x hx
  have := optList_mem h x hx
  simp only [List.mem_map, List.mem_range] at this
  obtain ⟨j, hj, hja⟩ := this
  exact ⟨j, hj, hja⟩

theorem window_length {w : ℕ} {a : Series} {t : ℕ} {l : List ℚ}
    (h : window w a t = some l) : l.length = w := by
  unfold window at h
  split_ifs at h
  rw [optList_length h, List.length_map, List.length_range]

theorem isSome_omap {α β : Type} {f : α → β} {o : Option α} :
    (o.map f).isSome = o.isSome := by
  rcases o with _ | x <;> rfl

theorem rollingMean_close_isSome {cs : List ℚ} {w t : ℕ} (hw : 1 ≤ w) :
    (rollingMean w (closeSeries cs) t).isSome ↔ w ≤ t + 1 ∧ t < cs.length := by
  unfold rollingMean
  rw [isSome_omap, window_isSome]
  constructor
  · rintro ⟨h1, h2⟩
    have := h2 0 (by omega)
    simp only [Nat.sub_zero] at this
    exact ⟨h1, closeSeries_isSome.1 this⟩
  · rintro ⟨h1, h2⟩
    exact ⟨h1, fun j hj => closeSeries_isSome.2 (by omega)⟩

theorem rollingMean_close_pos {cs : List ℚ} (hp : ∀ c ∈ cs, 0 < c)
    {w t : ℕ} (hw : 1 ≤ w) {m : ℚ}
    (h : rollingMean w (closeSeries cs) t = some m) : 0 < m := by
  unfold rollingMean at h
  rw [Option.map_eq_some'] at h
  obtain ⟨l, hl, rfl⟩ := h
  have hlen : l.length = w := window_length hl
  have hpos : ∀ x ∈ l, 0 < x := by
    intro x hx
    obtain ⟨j, -, hja⟩ := window_mem hl x hx
    exact closeSeries_pos hp hja
  have hne : l ≠ [] := by
    intro hnil
    rw [hnil] at hlen
    simp at hlen
    omega
  have hsum : 0 < l.sum := List.sum_pos l hpos hne
  unfold meanQ
  have hlpos : (0 : ℚ) < l.length := by
    have : 0 < l.length := List.length_pos.2 hne
    exact_mod_cast this
  positivity

/-- Definedness of `(a - b) / b` when every defined value of `b` is positive:
exactly when both operands are defined. -/
theorem ratio_isSome {a b : Series} {t : ℕ}
    (hb : ∀ y, b t = some y → 0 < y) :
    (sdiv (smap2 (fun x y => x - y) a b) b t).isSome ↔
      (a t).isSome ∧ (b t).isSome := by
  rw [sdiv_isSome, smap2_isSome]
  constructor
  · rintro ⟨⟨ha, hbs⟩, -⟩
    exact ⟨ha, hbs⟩
  · rintro ⟨ha, hbs⟩
    obtain ⟨y, hy⟩ := Option.isSome_iff_exists.1 hbs
    exact ⟨⟨ha, hbs⟩, y, hy, ne_of_gt (hb y hy)⟩

theorem price_vs_sma5_isSome {cs : List ℚ} (hp : ∀ c ∈ cs, 0 < c) (t : ℕ) :
    (price_vs_sma5 cs t).isSome ↔ 5 ≤ t + 1 ∧ t < cs.length := by
  unfold price_vs_sma5 sma_5
  rw [ratio_isSome (fun y hy => rollingMean_close_pos hp (by norm_num) hy)]
  rw [closeSeries_isSome, rollingMean_close_isSome (by norm_num)]
  omega

theorem price_vs_sma10_isSome {cs : List ℚ} (hp : ∀ c ∈ cs, 0 < c) (t : ℕ) :
    (price_vs_sma10 cs t).isSome ↔ 10 ≤ t + 1 ∧ t < cs.length := by
  unfold price_vs_sma10 sma_10
  rw [ratio_isSome (fun y hy => rollingMean_close_pos hp (by norm_num) hy)]
  rw [closeSeries_isSome, rollingMean_close_isSome (by norm_num)]
  omega

theorem price_vs_sma20_isSome {cs : List ℚ} (hp : ∀ c ∈ cs, 0 < c) (t : ℕ) :
    (price_vs_sma20 cs t).isSome ↔ 20 ≤ t + 1 ∧ t < cs.length := by
  unfold price_vs_sma20 sma_20
  rw [ratio_isSome (fun y hy => rollingMean_close_pos hp (by norm_num) hy)]
  rw [closeSeries_isSome, rollingMean_close_isSome (by norm_num)]
  omega

theorem sma5_vs_sma10_isSome {cs : List ℚ} (hp : ∀ c ∈ cs, 0 < c) (t : ℕ) :
    (sma5_vs_sma10 cs t).isSome ↔ 10 ≤ t + 1 ∧ t < cs.length := by
  unfold sma5_vs_sma10 sma_5 sma_10
  rw [ratio_isSome (fun y hy => rollingMean_close_pos hp (by norm_num) hy)]
  rw [rollingMean_close_isSome (by norm_num),
    rollingMean_close_isSome (by norm_num)]
  omega

theorem sma5_vs_sma20_isSome {cs : List ℚ} (hp : ∀ c ∈ cs, 0 < c) (t : ℕ) :
    (sma5_vs_sma20 cs t).isSome ↔ 20 ≤ t + 1 ∧ t < cs.length := by
  unfold sma5_vs_sma20 sma_5 sma_20
  rw [ratio_isSome (fun y hy => rollingMean_close_pos hp (by norm_num) hy)]
  rw [rollingMean_close_isSome (by norm_num),
    rollingMean_close_isSome (by norm_num)]
  omega

theorem sma10_vs_sma20_isSome {cs : List ℚ} (hp : ∀ c ∈ cs, 0 < c) (t : ℕ) :
    (sma10_vs_sma20 cs t).isSome ↔ 20 ≤ t + 1 ∧ t < cs.length := by
  unfold sma10_vs_sma20 sma_10 sma_20
  rw [ratio_isSome (fun y hy => rollingMean_close_pos hp (by norm_num) hy)]
  rw [rollingMean_close_isSome (by norm_num),
    rollingMean_close_isSome (by norm_num)]
  omega

theorem rollingVar_ret_isSome {cs : List ℚ} (hp : ∀ c ∈ cs, 0 < c)
    {w : ℕ} (hw : 1 ≤ w) (t : ℕ) :
    (rollingVarS w (return_1d cs) t).isSome ↔ w ≤ t ∧ t < cs.length := by
  unfold rollingVarS
  rw [isSome_omap, window_isSome]
  unfold return_1d
  constructor
  · rintro ⟨h1, h2⟩
    have h0 := (pctChange_isSome hp 1 t).1 (by simpa using h2 0 (by omega))
    have hw1 := (pctChange_isSome hp 1 (t - (w - 1))).1 (h2 (w - 1) (by omega))
    omega
  · rintro ⟨h1, h2⟩
    refine ⟨by omega, fun j hj => ?_⟩
    exact (pctChange_isSome hp 1 (t - j)).2 (by omega)

theorem volatility_5d_isSome {cs : List ℚ} (hp : ∀ c ∈ cs, 0 < c) (t : ℕ) :
    (volatility_5d cs t).isSome ↔ 5 ≤ t ∧ t < cs.length :=
  rollingVar_ret_isSome hp (by norm_num) t

theorem volatility_10d_isSome {cs : List ℚ} (hp : ∀ c ∈ cs, 0 < c) (t : ℕ) :
    (volatility_10d cs t).isSome ↔ 10 ≤ t ∧ t < cs.length :=
  rollingVar_ret_isSome hp (by norm_num) t

theorem volatility_20d_isSome {cs : List ℚ} (hp : ∀ c ∈ cs, 0 < c) (t : ℕ) :
    (volatility_20d cs t).isSome ↔ 20 ≤ t ∧ t < cs.length :=
  rollingVar_ret_isSome hp (by norm_num) t

theorem vol_ratio_isSome {cs : List ℚ} (hp : ∀ c ∈ cs, 0 < c)
    (hvz : ∀ t < cs.length, volatility_20d cs t ≠ some 0) (t : ℕ) :
    (vol_ratio_5_20 cs t).isSome ↔ 20 ≤ t ∧ t < cs.length := by
  unfold vol_ratio_5_20
  rw [sdiv_isSome]
  constructor
  · rintro ⟨-, y, hy, -⟩
    exact (volatility_20d_isSome hp t).1 (Option.isSome_iff_exists.2 ⟨y, hy⟩)
  · rintro ⟨h1, h2⟩
    have h5 : (volatility_5d cs t).isSome :=
      (volatility_5d_isSome hp t).2 ⟨by omega, h2⟩
    have h20 : (volatility_20d cs t).isSome :=
      (volatility_20d_isSome hp t).2 ⟨h1, h2⟩
    obtain ⟨y, hy⟩ := Option.isSome_iff_exists.1 h20
    refine ⟨h5, y, hy, fun hy0 => ?_⟩
    exact hvz t h2 (hy0 ▸ hy)

theorem return_lag_isSome {cs : List ℚ} (hp : ∀ c ∈ cs, 0 < c) (k t : ℕ) :
    (sshift k (return_1d cs) t).isSome ↔
      k + 1 ≤ t ∧ t - k < cs.length := by
  rw [sshift_isSome]
  unfold return_1d
  rw [pctChange_isSome hp]
  omega

theorem target_return_isSome {cs : List ℚ} (hp : ∀ c ∈ cs, 0 < c) (t : ℕ) :
    (target_return cs t).isSome ↔ t + 2 ≤ cs.length := by
  unfold target_return return_1d
  rw [pctChange_isSome hp]
  omega

/-- Which rows of a valid history survive the dropna: exactly those with a
full 20-day return-volatility window behind them (20 leading rows lost — the
20-day window of 1-day returns needs 21 closes) and a next-day target ahead
of them (the final row lost). -/
theorem rowUsable_iff {cs : List ℚ} (hp : ∀ c ∈ cs, 0 < c)
    (hvz : ∀ t < cs.length, volatility_20d cs t ≠ some 0) (t : ℕ) :
    rowUsable cs t = true ↔ 20 ≤ t ∧ t + 2 ≤ cs.length := by
  unfold rowUsable featureColumns
  simp only [List.all_cons, List.all_nil, Bool.and_true, Bool.and_eq_true]
  unfold return_1d return_2d return_3d return_5d return_10d
  unfold return_lag_1 return_lag_2 return_lag_3 return_lag_5
  rw [pctChange_isSome hp, pctChange_isSome hp, pctChange_isSome hp,
    pctChange_isSome hp, pctChange_isSome hp,
    price_vs_sma5_isSome hp, price_vs_sma10_isSome hp, price_vs_sma20_isSome hp,
    sma5_vs_sma10_isSome hp, sma5_vs_sma20_isSome hp, sma10_vs_sma20_isSome hp,
    volatility_5d_isSome hp, volatility_10d_isSome hp, volatility_20d_isSome hp,
    return_lag_isSome hp, return_lag_isSome hp, return_lag_isSome hp,
    return_lag_isSome hp, vol_ratio_isSome hp hvz, target_return_isSome hp]
  omega

/-- Counting a half-open band inside `List.range`. -/
theorem countP_range_band (n a b : ℕ) :
    (List.range n).countP (fun t => decide (a ≤ t ∧ t < b)) =
      min b n - min a n := by
  induction n with
  | zero => simp
  | succ n ih =>
    rw [List.range_succ, List.countP_append, ih]
    by_cases hab : a ≤ n ∧ n < b
    · rw [show List.countP (fun t => decide (a ≤ t ∧ t < b)) [n] = 1 by
        simp [List.countP_cons, hab]]
      omega
    · rw [show List.countP (fun t => decide (a ≤ t ∧ t < b)) [n] = 0 by
        simp [List.countP_cons, hab]]
      omega

/-- The exact row count surviving the dropna for a valid history whose
20-day return volatility never vanishes where defined. -/
theorem cleanCount_eq {cs : List ℚ} (hp : ∀ c ∈ cs, 0 < c)
    (hvz : ∀ t < cs.length, volatility_20d cs t ≠ some 0)
    (hn : 21 ≤ cs.length) :
    cleanCount cs = cs.length - 21 := by
  unfold cleanCount
  have hcong : ∀ t ∈ List.range cs.length,
      rowUsable cs t = true ↔
        (decide (20 ≤ t ∧ t < cs.length - 1)) = true := by
    intro t ht
    rw [rowUsable_iff hp hvz t, decide_eq_true_eq]
    omega
  rw [List.countP_congr hcong, countP_range_band]
  omega

/-! ## The flat-price degeneracy -/

theorem smap2_eq_some {f : ℚ → ℚ → ℚ} {a b : Series} {t : ℕ} {z : ℚ}
    (h : smap2 f a b t = some z) :
    ∃ x y, a t = some x ∧ b t = some y ∧ z = f x y := by
  unfold smap2 at h
  rcases ha : a t with _ | x <;> rcases hb : b t with _ | y <;>
    rw [ha, hb] at h <;> simp at h
  exact ⟨x, y, rfl, rfl, h.symm⟩

theorem sdiv_eq_some {a b : Series} {t : ℕ} {z : ℚ}
    (h : sdiv a b t = some z) :
    ∃ x y, a t = some x ∧ b t = some y ∧ y ≠ 0 ∧ z = x / y := by
  unfold sdiv at h
  rcases ha : a t with _ | x <;> rcases hb : b t with _ | y <;>
    rw [ha, hb] at h <;> simp at h
  rcases h with ⟨hy, hz⟩
  exact ⟨x, y, rfl, rfl, hy, hz.symm⟩

theorem sshift_eq_some {k : ℕ} {a : Series} {t : ℕ} {z : ℚ}
    (h : sshift k a t = some z) : a (t - k) = some z := by
  unfold sshift at h
  split_ifs at h
  exact h

theorem closeSeries_replicate {n : ℕ} {c : ℚ} {t : ℕ} {x : ℚ}
    (h : closeSeries (List.replicate n c) t = some x) : x = c :=
  List.eq_of_mem_replicate (List.get?_mem h)

/-- On a flat history every defined 1-day return is zero. -/
theorem return_1d_replicate {n : ℕ} {c : ℚ} {t : ℕ} {x : ℚ}
    (h : return_1d (List.replicate n c) t = some x) : x = 0 := by
  unfold return_1d pctChange at h
  obtain ⟨u, v, hu, hv, hvne, rfl⟩ := sdiv_eq_some h
  obtain ⟨p, q, hp, hq, rfl⟩ := smap2_eq_some hu
  have hpc := closeSeries_replicate hp
  have hqc := closeSeries_replicate (sshift_eq_some hq)
  rw [hpc, hqc, sub_self, zero_div]

/-- A window statistic of the flat history's returns: zero variance. -/
theorem volatility_replicate {n : ℕ} {c : ℚ} {w t : ℕ} {v : ℚ}
    (h : rollingVarS w (return_1d (List.replicate n c)) t = some v) :
    v = 0 := by
  unfold rollingVarS at h
  rw [Option.map_eq_some'] at h
  obtain ⟨l, hl, rfl⟩ := h
  have hz : ∀ x ∈ l, x = 0 := by
    intro x hx
    obtain ⟨j, -, hja⟩ := window_mem hl x hx
    exact return_1d_replicate hja
  unfold varQ
  have hm : meanQ l = 0 := by
    unfold meanQ
    rw [List.sum_eq_zero hz, zero_div]
  have : ∀ y ∈ l.map (fun x => (x - meanQ l) ^ 2), y = 0 := by
    intro y hy
    rw [List.mem_map] at hy
    obtain ⟨x, hx, rfl⟩ := hy
    rw [hz x hx, hm, sub_zero]
    norm_num
  rw [List.sum_eq_zero this, zero_div]

/-- `vol_ratio_5_20` is NaN in every row of a flat history: the 20-day
volatility is `0` wherever it is defined, so the ratio is `0 / 0`. -/
theorem vol_ratio_replicate (n : ℕ) (c : ℚ) (t : ℕ) :
    vol_ratio_5_20 (List.replicate n c) t = none := by
  unfold vol_ratio_5_20 sdiv
  rcases h5 : volatility_5d (List.replicate n c) t with _ | x
  · rfl
  · rcases h20 : volatility_20d (List.replicate n c) t with _ | v
    · rfl
    · have : v = 0 := volatility_replicate h20
      simp [this]

/-- No row of a flat history survives the dropna. -/
theorem rowUsable_replicate (n : ℕ) (c : ℚ) (t : ℕ) :
    rowUsable (List.replicate n c) t = false := by
  unfold rowUsable featureColumns
  simp [List.all_cons, vol_ratio_replicate]

theorem cleanCount_replicate (n : ℕ) (c : ℚ) :
    cleanCount (List.replicate n c) = 0 := by
  unfold cleanCount
  rw [List.countP_eq_zero]
  intro t _
  simp [rowUsable_replicate]

/-- The `i`-th emitted confidence is the decayed, rounded display confidence
at step `i0 + i`. -/
theorem rolloutAux_get_confidence {trees : List (List ℚ → ℚ)}
    {gauss : ℕ → ℚ → ℚ} {display histMean : ℚ} {k i0 : ℕ} {frame : List ℚ}
    {P : ℚ} {D : ℕ} {i : ℕ} {p : Prediction}
    (hip : (rolloutAux trees gauss display histMean i0 k frame P D).get? i =
      some p) :
    p.confidence = dayConfidence display (i0 + i) := by
  have hik : i < k := by
    obtain ⟨h, -⟩ := List.get?_eq_some.1 hip
    rwa [rolloutAux_length] at h
  have hconf := rolloutAux_confidences trees gauss display histMean k i0 frame P D
  have hm : ((rolloutAux trees gauss display histMean i0 k frame P D).map
      Prediction.confidence).get? i = some (dayConfidence display (i0 + i)) := by
    rw [hconf, List.get?_map, List.get?_range hik, Option.map_some']
  rw [List.get?_map, hip, Option.map_some'] at hm
  exact Option.some.inj hm

/-- Consecutive emitted confidences never increase (the decay factor falls
by `0.03` per step and rounding is monotone). -/
theorem rolloutAux_conf_chain (trees : List (List ℚ → ℚ))
    (gauss : ℕ → ℚ → ℚ) {display : ℚ} (histMean : ℚ) (hd : 0 ≤ display)
    (k i0 : ℕ) (frame : List ℚ) (P : ℚ) (D : ℕ) :
    List.Chain' (fun a b => b.confidence ≤ a.confidence)
      (rolloutAux trees gauss display histMean i0 k frame P D) := by
  have hmap := List.chain'_map (R := fun x y : ℚ => y ≤ x)
    (fun p : Prediction => p.confidence)
    (l := rolloutAux trees gauss display histMean i0 k frame P D)
  rw [← hmap, rolloutAux_confidences]
  rw [List.chain'_map]
  cases k with
  | zero => simp
  | succ k =>
    rw [List.chain'_range_succ]
    intro m hm
    exact dayConfidence_antitone hd (by omega)

/-! ## Evaluated facts about the concrete instances -/

theorem histA_pos : ∀ c ∈ histA, 0 < c := by decide

theorem histB_pos : ∀ c ∈ histB, 0 < c := by decide

set_option maxRecDepth 10000 in
set_option maxHeartbeats 4000000 in
theorem cleanCount_histA : cleanCount histA = 30 := by decide

set_option maxRecDepth 10000 in
set_option maxHeartbeats 4000000 in
theorem cleanCount_histB : cleanCount histB = 30 := by decide

set_option maxRecDepth 10000 in
set_option maxHeartbeats 4000000 in
theorem histA_vol20_ne_zero :
    ∀ t < histA.length, volatility_20d histA t ≠ some 0 := by decide

set_option maxRecDepth 10000 in
set_option maxHeartbeats 4000000 in
theorem histA_run_day3 :
    predictPrices treesZero 0 gaussZero histA 3 1 =
      .ok [{ target_date := 4, predicted_close := 1, confidence := 1 / 2 }] := by
  decide

set_option maxRecDepth 10000 in
set_option maxHeartbeats 4000000 in
theorem histA_run_day4 :
    predictPrices treesZero 0 gaussZero histA 4 1 =
      .ok [{ target_date := 7, predicted_close := 1, confidence := 1 / 2 }] := by
  decide

set_option maxRecDepth 10000 in
set_option maxHeartbeats 4000000 in
theorem histB_run_day3 :
    predictPrices treesZero 0 gaussZero histB 3 1 =
      .ok [{ target_date := 4, predicted_close := 0, confidence := 1 / 2 }] := by
  decide

/-! ## The claims -/

/-- C1: for every valid history whose dropna leaves at least the variant
minimum of 30 usable rows and every positive horizon, `predict_prices`
returns exactly `horizon` predictions whose target dates are strictly
increasing and never fall on a Saturday (`weekday 5`) or Sunday
(`weekday 6`). -/
theorem claim1_forecast_shape (trees : List (List ℚ → ℚ)) (oob : ℚ)
    (gauss : ℕ → ℚ → ℚ) (cs : List ℚ) (today horizon : ℕ)
    (_hpos : 0 < horizon) (hmin : 30 ≤ cleanCount cs) :
    predictPrices trees oob gauss cs today horizon =
      .ok (rolloutAux trees gauss (displayConfidence oob) (meanReturn cs)
        0 horizon cs (lastClose cs) today) ∧
    (rolloutAux trees gauss (displayConfidence oob) (meanReturn cs)
        0 horizon cs (lastClose cs) today).length = horizon ∧
    ((rolloutAux trees gauss (displayConfidence oob) (meanReturn cs)
        0 horizon cs (lastClose cs) today).map
      Prediction.target_date).Pairwise (· < ·) ∧
    ∀ p ∈ rolloutAux trees gauss (displayConfidence oob) (meanReturn cs)
        0 horizon cs (lastClose cs) today, p.target_date % 7 < 5 := by
  refine ⟨predictPrices_eq_ok (by omega) trees oob gauss today horizon,
    rolloutAux_length trees gauss _ _ horizon 0 cs _ today,
    rolloutAux_dates_sorted trees gauss _ _ horizon 0 cs _ today,
    fun p hp => (rolloutAux_dates trees gauss _ _ horizon 0 cs _ today p hp).2⟩

/-- Witness for C1 at the concrete 51-bar history, one-step horizon. -/
theorem claim1_forecast_shape_witness :
    predictPrices treesZero 0 gaussZero histA 3 1 =
      .ok (rolloutAux treesZero gaussZero (displayConfidence 0)
        (meanReturn histA) 0 1 histA (lastClose histA) 3) ∧
    (rolloutAux treesZero gaussZero (displayConfidence 0)
        (meanReturn histA) 0 1 histA (lastClose histA) 3).length = 1 :=
  ⟨(claim1_forecast_shape treesZero 0 gaussZero histA 3 1 (by norm_num)
      (le_of_eq cleanCount_histA.symm)).1,
   (claim1_forecast_shape treesZero 0 gaussZero histA 3 1 (by norm_num)
      (le_of_eq cleanCount_histA.symm)).2.1⟩

/-- C2, counterexample: a successful 35-step run whose step-34 confidence is
negative — `display * (1 - 34 * 0.03)` is below zero because the decay
factor crosses zero at step 34, so "confidence lies in [0,1] at every step"
fails as stated. -/
theorem claim2_confidence_range_cex :
    ∃ ps, predictPrices treesZero 0 gaussZero histA 3 35 = .ok ps ∧
      ∃ p, ps.get? 34 = some p ∧ p.confidence < 0 := by
  have hcc : ¬ cleanCount histA < 30 := by rw [cleanCount_histA]; omega
  refine ⟨_, predictPrices_eq_ok hcc treesZero 0 gaussZero 3 35, ?_⟩
  have hm : ((rolloutAux treesZero gaussZero (displayConfidence 0)
      (meanReturn histA) 0 35 histA (lastClose histA) 3).get? 34).map
        Prediction.confidence = some (dayConfidence (displayConfidence 0) (0 + 34)) := by
    rw [← List.get?_map,
      rolloutAux_confidences treesZero gaussZero (displayConfidence 0)
        (meanReturn histA) 35 0 histA (lastClose histA) 3,
      List.get?_map, List.get?_range (by norm_num), Option.map_some']
  rcases hq : (rolloutAux treesZero gaussZero (displayConfidence 0)
      (meanReturn histA) 0 35 histA (lastClose histA) 3).get? 34 with _ | p
  · rw [hq] at hm; cases hm
  · rw [hq, Option.map_some'] at hm
    refine ⟨p, rfl, ?_⟩
    rw [Option.some.inj hm]
    decide

/-- C2, amended: on every successful run the confidences are monotonically
non-increasing step over step, and they lie in `[0,1]` for every step index
`i ≤ 33` (from step 34 on, the decay factor `1 - i * 0.03` is negative and
the emitted confidence drops below 0). -/
theorem claim2_confidence_bounds (trees : List (List ℚ → ℚ)) (oob : ℚ)
    (gauss : ℕ → ℚ → ℚ) (cs : List ℚ) (today horizon : ℕ)
    (ps : List Prediction)
    (h : predictPrices trees oob gauss cs today horizon = .ok ps) :
    (∀ i p, ps.get? i = some p → i ≤ 33 →
        0 ≤ p.confidence ∧ p.confidence ≤ 1) ∧
      List.Chain' (fun a b => b.confidence ≤ a.confidence) ps := by
  obtain ⟨hcc, rfl⟩ := predictPrices_ok_inv h
  have hd0 : 0 ≤ displayConfidence oob :=
    le_trans (by norm_num) (displayConfidence_lb oob)
  constructor
  · intro i p hip hi
    rw [rolloutAux_get_confidence hip]
    exact ⟨dayConfidence_nonneg hd0 (by omega),
      dayConfidence_le_one hd0 (displayConfidence_ub oob) _⟩
  · exact rolloutAux_conf_chain trees gauss _ hd0 horizon 0 cs _ today

/-- Witness for C2 (amended) at the concrete one-step run. -/
theorem claim2_confidence_bounds_witness :
    0 ≤ ({ target_date := 4, predicted_close := 1, confidence := 1 / 2 } :
        Prediction).confidence ∧
      ({ target_date := 4, predicted_close := 1, confidence := 1 / 2 } :
        Prediction).confidence ≤ 1 :=
  (claim2_confidence_bounds treesZero 0 gaussZero histA 3 1 _
    histA_run_day3).1 0 _ rfl (by norm_num)

/-- C3: the displayed base confidence is exactly
`clamp(0.50 + oob_r2 * 2.5, 0.40, 0.85)` and in particular always lies in
`[0.40, 0.85]`, for every out-of-bag score. -/
theorem claim3_display_confidence (oob : ℚ) :
    displayConfidence oob =
      clampSpec (1 / 2 + oob * (5 / 2)) (40 / 100) (85 / 100) ∧
    40 / 100 ≤ displayConfidence oob ∧ displayConfidence oob ≤ 85 / 100 := by
  refine ⟨?_, displayConfidence_lb oob, displayConfidence_ub oob⟩
  unfold displayConfidence clampSpec
  split_ifs with h1 h2
  · rw [max_eq_left h1.le, min_eq_right (by norm_num)]
  · rw [max_eq_right (le_of_not_lt h1), min_eq_left (le_of_lt h2)]
  · rw [max_eq_right (le_of_not_lt h1), min_eq_right (le_of_not_lt h2)]

/-- C4: a flat history (every close identical) leaves zero usable rows —
`volatility_20d` is 0 wherever defined, `vol_ratio_5_20` is `0/0` = NaN in
every row, dropna removes everything — so `predict_prices` returns the
"Not enough data" error instead of the forecast the spec's scenario
requires; this holds for any flat value and any length. -/
theorem claim4_flat_series_errors (trees : List (List ℚ → ℚ)) (oob : ℚ)
    (gauss : ℕ → ℚ → ℚ) (c : ℚ) (n today horizon : ℕ) :
    cleanCount (List.replicate n c) = 0 ∧
      predictPrices trees oob gauss (List.replicate n c) today horizon =
        .error ("Not enough data. Need 30+ rows, got 0") := by
  refine ⟨cleanCount_replicate n c, ?_⟩
  unfold predictPrices
  rw [cleanCount_replicate]
  rw [if_pos (by norm_num)]
  rfl

/-- C5, counterexample: on the concrete 51-bar history exactly 30 rows
survive the dropna, not `51 - 20 = 31`: the claimed identity
`len(history) - (max window size)` is off by one. -/
theorem claim5_rowcount_cex :
    histA.length = 51 ∧ cleanCount histA = 30 ∧
      cleanCount histA ≠ histA.length - 20 := by
  refine ⟨by decide, cleanCount_histA, ?_⟩
  rw [cleanCount_histA]
  decide

/-- C5, amended: for every history of positive closes, of length at least
21, whose 20-day return volatility never vanishes where defined, the
dropna leaves exactly `len(history) - 21` rows: the largest window (20)
operates on 1-day returns and so consumes 21 leading closes, and the
shifted next-day target consumes the final row. -/
theorem claim5_rowcount (cs : List ℚ) (hp : ∀ c ∈ cs, 0 < c)
    (hvz : ∀ t < cs.length, volatility_20d cs t ≠ some 0)
    (hn : 21 ≤ cs.length) :
    cleanCount cs = cs.length - 21 :=
  cleanCount_eq hp hvz hn

/-- Witness for C5 (amended) at the concrete 51-bar history. -/
theorem claim5_rowcount_witness : cleanCount histA = histA.length - 21 :=
  claim5_rowcount histA histA_pos histA_vol20_ne_zero (by decide)

/-- C6: fewer than 30 usable rows after trimming makes `predict_prices`
return (never raise) the structured error value, and a fetched history of
fewer than 20 rows makes `generate_predictions` return its own structured
error before any prediction is attempted; both are plain return values of
total functions, so nothing is thrown across the boundary. -/
theorem claim6_insufficient_data (trees : List (List ℚ → ℚ)) (oob : ℚ)
    (gauss : ℕ → ℚ → ℚ) (cs : List ℚ) (symbol : String) (today horizon : ℕ) :
    (cleanCount cs < 30 →
      predictPrices trees oob gauss cs today horizon =
        .error ("Not enough data. Need 30+ rows, got " ++
          toString (cleanCount cs))) ∧
    (cs.length < 20 →
      generatePredictions trees oob gauss symbol (.ok cs) today horizon =
        .error ("Not enough data for " ++ symbol ++
          ". Need at least 20 days, got " ++ toString cs.length)) := by
  constructor
  · intro h
    simp [predictPrices, h]
  · intro h
    simp [generatePredictions, h]

/-- Witness for C6 at the empty history. -/
theorem claim6_insufficient_data_witness :
    predictPrices treesZero 0 gaussZero [] 0 5 =
      .error ("Not enough data. Need 30+ rows, got " ++
        toString (cleanCount ([] : List ℚ))) ∧
    generatePredictions treesZero 0 gaussZero "AAPL" (.ok []) 0 5 =
      .error ("Not enough data for AAPL. Need at least 20 days, got " ++
        toString (List.length ([] : List ℚ))) :=
  ⟨(claim6_insufficient_data treesZero 0 gaussZero [] "AAPL" 0 5).1 (by decide),
   (claim6_insufficient_data treesZero 0 gaussZero [] "AAPL" 0 5).2 (by decide)⟩

/-- C7, counterexample: a successful run over an all-positive penny-stock
history whose emitted `predicted_close` is `0` — `round(0.001, 2) = 0.0` —
so "every predicted_close is a positive real" fails for the rounded output
field as stated. -/
theorem claim7_positive_close_cex :
    histB.all (fun c => decide (0 < c)) = true ∧
      predictPrices treesZero 0 gaussZero histB 3 1 =
        .ok [{ target_date := 4, predicted_close := 0, confidence := 1 / 2 }] ∧
      ¬ (0 < ({ target_date := 4, predicted_close := 0, confidence := 1 / 2 } :
          Prediction).predicted_close) :=
  ⟨by decide, histB_run_day3, by decide⟩

/-- C7, amended: every rollout step clamps its predicted return into
`[-0.05, 0.05]` (whatever the model or fallback produced), the next price is
`last_price * (1 + clamped_return)` — kept positive exactly by the clamp —
and on a positive last price every emitted `predicted_close` is therefore
*non-negative*; it can still round to exactly `0` for sub-cent prices, so
positivity survives only before the 2-decimal rounding. -/
theorem claim7_clamp_and_positivity :
    (∀ r : ℚ, -(5 / 100) ≤ clampRet r ∧ clampRet r ≤ 5 / 100) ∧
    (∀ P r : ℚ, 0 < P → 0 < P * (1 + clampRet r)) ∧
    (∀ (trees : List (List ℚ → ℚ)) (gauss : ℕ → ℚ → ℚ)
        (display histMean : ℚ) (i k : ℕ) (frame : List ℚ) (P : ℚ) (D : ℕ),
      rolloutAux trees gauss display histMean i (k + 1) frame P D =
        { target_date := nextBusinessDay D,
          predicted_close :=
            round2 (P * (1 + clampRet (stepReturn trees gauss histMean frame i))),
          confidence := dayConfidence display i } ::
          rolloutAux trees gauss display histMean (i + 1) k
            (frame ++ [P * (1 + clampRet (stepReturn trees gauss histMean frame i))])
            (P * (1 + clampRet (stepReturn trees gauss histMean frame i)))
            (nextBusinessDay D)) ∧
    (∀ (trees : List (List ℚ → ℚ)) (gauss : ℕ → ℚ → ℚ)
        (display histMean : ℚ) (k i : ℕ) (frame : List ℚ) (P : ℚ) (D : ℕ),
      0 < P → ∀ p ∈ rolloutAux trees gauss display histMean i k frame P D,
        0 ≤ p.predicted_close) :=
  ⟨fun r => ⟨clampRet_lb r, clampRet_ub r⟩,
   fun _P r hP => mul_pos hP (one_add_clampRet_pos r),
   fun _ _ _ _ _ _ _ _ _ => rfl,
   fun trees gauss display histMean k i frame P D hP =>
     rolloutAux_close_nonneg trees gauss display histMean k i frame P D hP⟩

/-- Witness for C7 (amended) at concrete returns, prices and a one-step
rollout. -/
theorem claim7_clamp_and_positivity_witness :
    (-(5 / 100) ≤ clampRet (7 / 100) ∧ clampRet (7 / 100) ≤ 5 / 100) ∧
      (0 : ℚ) < 2 * (1 + clampRet (-(7 / 100))) ∧
      0 ≤ ({ target_date := 4, predicted_close := 1, confidence := 1 / 2 } :
        Prediction).predicted_close :=
  ⟨claim7_clamp_and_positivity.1 (7 / 100),
   claim7_clamp_and_positivity.2.1 2 (-(7 / 100)) (by norm_num),
   claim7_clamp_and_positivity.2.2.2 treesZero gaussZero (1 / 2) 0 1 0 [] 1 3
     (by norm_num) _ (by decide)⟩

/-- C8, counterexample: with the model, seed (noise stream) and history all
fixed, two calls anchored on different wall-clock days produce different
outputs — the current date is a hidden input of `predict_prices`
(`datetime.now()`), so "no other hidden input influences the result" fails
as stated. -/
theorem claim8_wallclock_cex :
    predictPrices treesZero 0 gaussZero histA 3 1 ≠
      predictPrices treesZero 0 gaussZero histA 4 1 := by
  rw [histA_run_day3, histA_run_day4]
  decide

/-- C8, amended: two calls with the same fitted model, out-of-bag score,
seeded noise stream, history, wall-clock date and horizon produce identical
output — the forecast is a pure function of exactly these inputs (the
embedding surfaces every effect of the source as one of them). -/
theorem claim8_determinism (trees1 trees2 : List (List ℚ → ℚ))
    (oob1 oob2 : ℚ) (gauss1 gauss2 : ℕ → ℚ → ℚ) (cs1 cs2 : List ℚ)
    (today1 today2 horizon1 horizon2 : ℕ)
    (ht : trees1 = trees2) (ho : oob1 = oob2) (hg : gauss1 = gauss2)
    (hc : cs1 = cs2) (hd : today1 = today2) (hh : horizon1 = horizon2) :
    predictPrices trees1 oob1 gauss1 cs1 today1 horizon1 =
      predictPrices trees2 oob2 gauss2 cs2 today2 horizon2 := by
  subst ht ho hg hc hd hh
  rfl

/-- Witness for C8 (amended). -/
theorem claim8_determinism_witness :
    predictPrices treesZero 0 gaussZero [] 0 1 =
      predictPrices treesZero 0 gaussZero [] 0 1 :=
  claim8_determinism treesZero treesZero 0 0 gaussZero gaussZero [] [] 0 0 1 1
    rfl rfl rfl rfl rfl rfl

/-- C9: whenever the latest feature vector of the working frame has an
undefined signal, the step's predicted return is the historical mean 1-day
return, and this never turns a successful run into an error: past the
30-usable-rows gate the result is always the `ok` rollout, whose fallback
mean is computed over the original input frame (`meanReturn cs`). -/
theorem claim9_degenerate_fallback :
    (∀ (trees : List (List ℚ → ℚ)) (gauss : ℕ → ℚ → ℚ) (histMean : ℚ)
        (frame : List ℚ) (i : ℕ),
      (latestFeatures frame).any (fun v => v.isNone) = true →
        stepReturn trees gauss histMean frame i = histMean) ∧
    (∀ (trees : List (List ℚ → ℚ)) (oob : ℚ) (gauss : ℕ → ℚ → ℚ)
        (cs : List ℚ) (today horizon : ℕ),
      ¬ cleanCount cs < 30 →
        predictPrices trees oob gauss cs today horizon =
          .ok (rolloutAux trees gauss (displayConfidence oob) (meanReturn cs)
            0 horizon cs (lastClose cs) today)) := by
  constructor
  · intro trees gauss histMean frame i h
    simp only [stepReturn, h, if_true]
  · intro trees oob gauss cs today horizon h
    exact predictPrices_eq_ok h trees oob gauss today horizon

/-- Witness for C9: a one-row frame (all rolling signals NaN) falls back to
the supplied historical mean, and the concrete 51-bar run is `ok`. -/
theorem claim9_degenerate_fallback_witness :
    stepReturn treesZero gaussZero (7 / 10) [1] 0 = 7 / 10 ∧
      predictPrices treesZero 0 gaussZero histA 3 1 =
        .ok (rolloutAux treesZero gaussZero (displayConfidence 0)
          (meanReturn histA) 0 1 histA (lastClose histA) 3) :=
  ⟨claim9_degenerate_fallback.1 treesZero gaussZero (7 / 10) [1] 0 (by decide),
   claim9_degenerate_fallback.2 treesZero 0 gaussZero histA 3 1
     (by rw [cleanCount_histA]; omega)⟩

/-- C10: every successful orchestrator result carries the constant
`model_version` tag `"ridge_v1"` (despite the random-forest estimator) and
`historical_days_used` equal to the fetched history's exact row count. -/
theorem claim10_metadata (trees : List (List ℚ → ℚ)) (oob : ℚ)
    (gauss : ℕ → ℚ → ℚ) (symbol : String) (cs : List ℚ)
    (today horizon : ℕ) (res : ForecastResult)
    (h : generatePredictions trees oob gauss symbol (.ok cs) today horizon =
      .ok res) :
    res.model_version = "ridge_v1" ∧ res.historical_days_used = cs.length := by
  unfold generatePredictions at h
  simp only at h
  by_cases hl : cs.length < 20
  · rw [if_pos hl] at h
    cases h
  · rw [if_neg hl] at h
    rcases hpp : predictPrices trees oob gauss cs today horizon with e | ps
    · rw [hpp] at h
      cases h
    · rw [hpp] at h
      cases h
      exact ⟨rfl, rfl⟩

/-- The concrete 51-bar history run through the orchestrator. -/
theorem histA_gen :
    generatePredictions treesZero 0 gaussZero "AAPL" (.ok histA) 3 1 =
      .ok { symbol := "AAPL", model_version := "ridge_v1",
            historical_days_used := histA.length,
            predictions :=
              [{ target_date := 4, predicted_close := 1, confidence := 1 / 2 }] } := by
  unfold generatePredictions
  simp only
  rw [if_neg (by decide), histA_run_day3]

/-- Witness for C10 at the concrete successful run. -/
theorem claim10_metadata_witness :
    ({ symbol := "AAPL", model_version := "ridge_v1",
       historical_days_used := histA.length,
       predictions :=
         [{ target_date := 4, predicted_close := 1, confidence := 1 / 2 }] } :
      ForecastResult).model_version = "ridge_v1" ∧
    ({ symbol := "AAPL", model_version := "ridge_v1",
       historical_days_used := histA.length,
       predictions :=
         [{ target_date := 4, predicted_close := 1, confidence := 1 / 2 }] } :
      ForecastResult).historical_days_used = histA.length :=
  claim10_metadata treesZero 0 gaussZero "AAPL" histA 3 1 _ histA_gen
